import Mathlib

/-!
Verification of the migration orchestration engine of `mylar2kapowarr.py`.

The Python source is shallowly embedded: loosely-typed JSON values become
`PyVal`, dictionary records with the fixed key sets the code reads become
structures, the Kapowarr volume list becomes an explicit list of stored
`comicvine_id` values, the filesystem becomes an explicit list of file
paths, and the per-comic loop body of `migrate_comics` becomes a pure
state-passing function (plus a second, exception-aware model used to
study which failures the per-entry `try` block catches).
-/

namespace Mylar2Kapowarr

/-- Model of the loosely-typed JSON values this script actually handles:
Python `None`, strings, and integers. -/
inductive PyVal where
  | none
  | str (s : String)
  | int (n : Int)
  deriving DecidableEq, Repr

/-- Python truthiness for the values of `PyVal`: `None`, `0` and `""`
are falsy, everything else truthy. -/
def PyVal.truthy : PyVal → Bool
  | PyVal.none => false
  | PyVal.str s => s ≠ ""
  | PyVal.int n => n ≠ 0

/-- Python `str(v)` on the modelled values. -/
def PyVal.toPyStr : PyVal → String
  | PyVal.none => "None"
  | PyVal.str s => s
  | PyVal.int n => toString n

/-- Python `a or b`: returns `a` when truthy, else `b`. -/
def pyOr (a b : PyVal) : PyVal :=
  if a.truthy then a else b

/-- Value of `d.get(key, "")` given the stored value of the key, where a
missing key (for which `d.get(key)` would return `None`) is modelled as
`PyVal.none`. -/
def getS (v : PyVal) : PyVal :=
  match v with
  | PyVal.none => PyVal.str ""
  | w => w

/-- Python `s.lower()` restricted to ASCII, which is all the script compares. -/
def pyLower (s : String) : String :=
  String.mk (s.toList.map Char.toLower)

/-- Python `s.startswith(pre)`. -/
def pyStartsWith (s pre : String) : Bool :=
  pre.toList.isPrefixOf s.toList

/-- Fuel-indexed body of Python `str.replace`: replaces every
non-overlapping occurrence of `pat` by `rep`, scanning left to right.
The fuel is an upper bound on the number of scan steps. -/
def replaceFuel (pat rep : List Char) : Nat → List Char → List Char
  | 0, s => s
  | _ + 1, [] => []
  | fuel + 1, c :: cs =>
    if pat ≠ [] ∧ pat.isPrefixOf (c :: cs) then
      rep ++ replaceFuel pat rep fuel ((c :: cs).drop pat.length)
    else
      c :: replaceFuel pat rep fuel cs

/-- Python `s.replace(pat, rep)` (the script never calls it with an empty
pattern, for which this model is the identity). -/
def pyReplace (s pat rep : String) : String :=
  String.mk (replaceFuel pat.toList rep.toList s.toList.length s.toList)

/-- Python `s.split(sep)` for a one-character separator. -/
def splitOnChar (sep : Char) : List Char → List (List Char)
  | [] => [[]]
  | c :: cs =>
    if c = sep then [] :: splitOnChar sep cs
    else
      match splitOnChar sep cs with
      | [] => [[c]]
      | h :: t => (c :: h) :: t

/-- Python `s.lstrip('/')`. -/
def lstripSlashes (s : String) : String :=
  String.mk (s.toList.dropWhile (fun ch => ch = '/'))

/-- Two-argument `os.path.join` with POSIX semantics. -/
def osPathJoin (a b : String) : String :=
  if pyStartsWith b "/" then b
  else if a = "" ∨ a.toList.getLast? = some '/' then a ++ b
  else a ++ "/" ++ b

/-- Suffix of a character list after the last occurrence of `sep`
(the whole list when `sep` does not occur). -/
def afterLastSep (sep : Char) : List Char → List Char
  | [] => []
  | c :: cs =>
    if cs.contains sep then afterLastSep sep cs
    else if c = sep then cs
    else c :: cs

/-- `os.path.basename` for POSIX paths. -/
def basename (s : String) : String :=
  String.mk (afterLastSep '/' s.toList)

/-- Splits a character list at its last `'.'`: `some (before, dotAndAfter)`
when a dot occurs, `none` otherwise. -/
def splitAtLastDot : List Char → Option (List Char × List Char)
  | [] => Option.none
  | c :: cs =>
    match splitAtLastDot cs with
    | some (b, a) => some (c :: b, a)
    | Option.none => if c = '.' then some ([], c :: cs) else Option.none

/-- `os.path.splitext` on a bare filename: the extension starts at the last
dot, provided some non-dot character precedes it. -/
def splitextChars (l : List Char) : List Char × List Char :=
  match splitAtLastDot l with
  | some (b, a) => if b.any (fun ch => ch ≠ '.') then (b, a) else (l, [])
  | Option.none => (l, [])

/-- Python `s.zfill(width)` for the unsigned strings the script feeds it. -/
def zfill (width : Nat) (s : String) : String :=
  if s.length < width then String.mk (List.replicate (width - s.length) '0' ++ s.toList) else s

/-- Helper of `hashNumSearch`: does some run of leading whitespace of `rest`
end right before an occurrence of `num`? (This is the backtracking search
a regex engine performs for the tail `\s*num` of the pattern.) -/
def wsThenNum (num rest : List Char) : Bool :=
  (List.range (rest.length + 1)).any
    (fun k => ((rest.take k).all (fun ch => ch.isWhitespace)) && num.isPrefixOf (rest.drop k))

/-- Model of `re.search(rf'#\s*{issue_number}', filename)` (line 708) for
issue numbers without regex metacharacters: some `'#'` in the text is
followed, after optional whitespace, by the issue number. -/
def hashNumSearch (num : List Char) : List Char → Bool
  | [] => false
  | c :: cs => ((c == '#') && wsThenNum num cs) || hashNumSearch num cs

/-- The id canonicalization of `migrate_comics` (lines 831-833):
`cv_id = cv_id.split('-')[-1]` when `'-' in cv_id`, else unchanged. -/
def canonicalExternalId (s : String) : String :=
  if s.toList.contains '-' then String.mk ((splitOnChar '-' s.toList).getLastD [])
  else s

/-- A raw comic record from Mylar, restricted to the keys `migrate_comics`
reads. A key that is missing from the dictionary (for which `dict.get`
returns `None`) is modelled as `PyVal.none`. -/
structure RawComic where
  id : PyVal
  ComicID : PyVal
  comicid : PyVal
  name : PyVal
  ComicName : PyVal
  Title : PyVal
  status : PyVal
  Status : PyVal
  deriving DecidableEq, Repr

/-- Title resolution (line 808):
`comic.get("name") or comic.get("ComicName") or comic.get("Title") or "Unknown Title"`. -/
def comicTitle (c : RawComic) : PyVal :=
  pyOr (pyOr (pyOr c.name c.ComicName) c.Title) (PyVal.str "Unknown Title")

/-- External-id resolution (line 809):
`comic.get("id") or comic.get("ComicID") or comic.get("comicid")`. -/
def comicvineIdOf (c : RawComic) : PyVal :=
  pyOr (pyOr c.id c.ComicID) c.comicid

/-- Status normalization (lines 816-818): default `""`, lower-cased when a
string (a non-string status is left as is, exactly as in the code). -/
def comicStatusNorm (c : RawComic) : PyVal :=
  match pyOr (pyOr c.status c.Status) (PyVal.str "") with
  | PyVal.str t => PyVal.str (pyLower t)
  | v => v

/-- Line 819: `monitored = status == "active"` on the normalized status. -/
def comicMonitored (c : RawComic) : Bool :=
  comicStatusNorm c = PyVal.str "active"

/-- Canonical external id of a comic: `str()` of the resolved id followed by
the `split('-')[-1]` normalization (lines 831-833). -/
def canonOfComic (c : RawComic) : String :=
  canonicalExternalId (comicvineIdOf c).toPyStr

/-- The creation request body built at lines 836-844. `Option.none` in a
monitor field models omission of that key from the JSON payload. -/
structure VolumeData where
  comicvine_id : String
  root_folder_id : Int
  monitor : Option Bool
  monitor_new_issues : Option Bool
  deriving DecidableEq, Repr

/-- Lines 836-844: the payload always carries the canonical id and the
(integer) root folder id; the two monitor keys are added, both `false`,
only when the comic is not monitored. -/
def buildVolumeData (c : RawComic) (rootFolderId : Int) : VolumeData :=
  if comicMonitored c then
    { comicvine_id := canonOfComic c, root_folder_id := rootFolderId
      monitor := Option.none, monitor_new_issues := Option.none }
  else
    { comicvine_id := canonOfComic c, root_folder_id := rootFolderId
      monitor := some false, monitor_new_issues := some false }

/-- Kapowarr's volume list is modelled by the stored `comicvine_id` value of
each volume (the only attribute `is_volume_added` inspects, lines 302-307):
the check compares `str()` forms. -/
def isVolumeAdded (vols : List PyVal) (cid : PyVal) : Bool :=
  vols.any (fun v => v.toPyStr == cid.toPyStr)

/-- Result alternatives of `KapowarrAPI.add_volume` in the failure-free model. -/
inductive AddOutcome where
  | alreadyAdded
  | added
  deriving DecidableEq, Repr

/-- Failure-free model of `KapowarrAPI.add_volume` (lines 309-349): the
client first re-checks `is_volume_added` on the id carried by the payload and
reports `VolumeAlreadyAdded` without posting; otherwise Kapowarr stores a new
volume under that id. -/
def add_volume (vols : List PyVal) (vd : VolumeData) : AddOutcome × List PyVal :=
  if isVolumeAdded vols (PyVal.str vd.comicvine_id) then (AddOutcome.alreadyAdded, vols)
  else (AddOutcome.added, vols ++ [PyVal.str vd.comicvine_id])

/-- Per-entry classification of the failure-free engine model. -/
inductive POutcome where
  | skipped
  | alreadyPresent
  | created (cv : String)
  deriving DecidableEq, Repr

/-- Failure-free model of one iteration of the `migrate_comics` loop
(lines 806-856), tracking only the Kapowarr volume list: skip on a falsy id,
pre-check `is_volume_added` on the raw resolved id, otherwise post the built
payload and fold `VolumeAlreadyAdded` into the already-present
classification. -/
def processComic (rootId : Int) (vols : List PyVal) (c : RawComic) : POutcome × List PyVal :=
  if (comicvineIdOf c).truthy = false then (POutcome.skipped, vols)
  else if isVolumeAdded vols (comicvineIdOf c) then (POutcome.alreadyPresent, vols)
  else
    match add_volume vols (buildVolumeData c rootId) with
    | (AddOutcome.alreadyAdded, v) => (POutcome.alreadyPresent, v)
    | (AddOutcome.added, v) => (POutcome.created (buildVolumeData c rootId).comicvine_id, v)

/-- Failure-free model of the whole `migrate_comics` loop over a prepared
comic list, returning the per-entry classifications and the final volume
list. -/
def runEngine (rootId : Int) (vols : List PyVal) : List RawComic → List POutcome × List PyVal
  | [] => ([], vols)
  | c :: rest =>
    ((processComic rootId vols c).1 ::
        (runEngine rootId (processComic rootId vols c).2 rest).1,
      (runEngine rootId (processComic rootId vols c).2 rest).2)

/-- Truncation by `limit` (lines 785-787): applied only when
`limit and limit > 0`, which for an integer is equivalent to `0 < limit`. -/
def applyLimit (comics : List RawComic) (limit : Int) : List RawComic :=
  if 0 < limit then comics.take limit.toNat else comics

/-- Index of the first comic whose lower-cased `name` value equals the
already lower-cased resume title (lines 792-797). -/
def resumeIdx (rl : String) : List RawComic → Option Nat
  | [] => Option.none
  | c :: rest =>
    if pyLower (getS c.name).toPyStr = rl then some 0
    else (resumeIdx rl rest).map (fun i => i + 1)

/-- Resume handling (lines 790-803): drop everything before the first
case-insensitive `name` match; when no comic matches (or no resume title is
given, or it is the falsy `""`), keep the whole list. -/
def applyResume (comics : List RawComic) (resume_from : Option String) : List RawComic :=
  match resume_from with
  | Option.none => comics
  | some r =>
    if r = "" then comics
    else
      match resumeIdx (pyLower r) comics with
      | some i => comics.drop i
      | Option.none => comics

/-- The windowing performed before the main loop: `limit` first
(lines 785-787), then `resume_from` (lines 790-803). -/
def applyWindow (comics : List RawComic) (limit : Int) (resume_from : Option String) :
    List RawComic :=
  applyResume (applyLimit comics limit) resume_from

/-- A raw Mylar issue record, restricted to the keys the matching loop
reads (lines 910-921). Missing keys are modelled as `PyVal.none`. -/
structure MylarIssue where
  issue_number : PyVal
  Issue_Number : PyVal
  IssueNumber : PyVal
  number : PyVal
  id : PyVal
  deriving DecidableEq, Repr

/-- Issue-number resolution (lines 912-917): four keys tried in order, each
read with default `""`. -/
def mylarIssueNum (mi : MylarIssue) : PyVal :=
  pyOr (pyOr (pyOr (getS mi.issue_number) (getS mi.Issue_Number)) (getS mi.IssueNumber))
    (getS mi.number)

/-- Line 918: `str(mylar_issue_num) == str(issue_number)`. -/
def numberMatches (target_number : PyVal) (mi : MylarIssue) : Bool :=
  (mylarIssueNum mi).toPyStr == target_number.toPyStr

/-- The issue the matching loop (lines 909-924) settles on for a given
Kapowarr issue number: the first Mylar issue whose number string-matches and
whose `id` is truthy. (A number match without a truthy `id` does not set
`matched` and the loop keeps scanning; only a match with an id reaches
`break`.) -/
def matchMylarIssue (target_number : PyVal) : List MylarIssue → Option MylarIssue
  | [] => Option.none
  | mi :: rest =>
    if numberMatches target_number mi && (mi.id).truthy then some mi
    else matchMylarIssue target_number rest

/-- A Kapowarr issue as read by the loop (line 906). -/
structure KapIssue where
  issue_number : PyVal
  id : PyVal
  deriving DecidableEq, Repr

/-- The slice of a Kapowarr volume-detail response the loop reads
(lines 870, 886). -/
structure KapVolume where
  folder : PyVal
  issues : List KapIssue
  deriving DecidableEq, Repr

/-- Result of `KapowarrAPI.add_volume` as consumed by `migrate_comics`:
either the folded `VolumeAlreadyAdded` error, or a result dictionary of
which only the `id` key is read (line 856). -/
inductive AddResult where
  | alreadyAdded
  | result (volume_id : PyVal)
  deriving DecidableEq, Repr

/-- The external operations `migrate_comics` performs per entry, as
deterministic oracles. `Except.error` models a raised exception.
`get_comic_info` is total because `MylarAPI._make_request` catches its own
exceptions and returns an empty payload (lines 63-65, 192-198);
`download_issue` returns `Except.ok Option.none` when the response carries
no `Content-Disposition` filename (the placeholder case, lines 947-950). -/
structure Gateways where
  is_volume_added : PyVal → Except String Bool
  add_volume : VolumeData → Except String AddResult
  get_volume : PyVal → Except String KapVolume
  get_comic_info : PyVal → List MylarIssue
  download_issue : PyVal → Except String (Option String)

/-- Download attempts for one Kapowarr issue (lines 910-966): scan the Mylar
issues in order; at a number match with a truthy id, attempt the download
inside the inner `try`: a missing filename (`continue`) resumes the scan, a
caught download failure falls through to `break` with nothing downloaded,
and a successful download counts one file and breaks. -/
def downloadScan (g : Gateways) (dryRun : Bool) (kapNum : String) : List MylarIssue → Nat
  | [] => 0
  | mi :: rest =>
    if numberMatches (PyVal.str kapNum) mi then
      if (mi.id).truthy then
        if dryRun then 1
        else
          match g.download_issue mi.id with
          | Except.ok (some _) => 1
          | Except.ok Option.none => downloadScan g dryRun kapNum rest
          | Except.error _ => 0
      else downloadScan g dryRun kapNum rest
    else downloadScan g dryRun kapNum rest

/-- Total downloads over the Kapowarr issues of a volume (lines 904-971). -/
def downloadCount (g : Gateways) (dryRun : Bool) (mylarIssues : List MylarIssue)
    (issues : List KapIssue) : Nat :=
  (issues.map (fun i => downloadScan g dryRun ((getS i.issue_number).toPyStr) mylarIssues)).sum

/-- Per-entry classification of the exception-aware engine model. -/
inductive EOutcome where
  | skipped
  | alreadyPresent
  | noVolumeId
  | created (cv : String) (downloads : Nat)
  | failed (msg : String)
  deriving DecidableEq, Repr

/-- The body of the per-entry `try` block (lines 846-981): add the volume,
fold `VolumeAlreadyAdded`, bail out on a falsy returned volume id, fetch the
volume detail, and (in copy mode) run the download loop. An `Except.error`
escaping this function models an exception reaching the `except` at
line 983. -/
def tryBody (g : Gateways) (rootId : Int) (copyFiles dryRun : Bool) (c : RawComic) :
    Except String EOutcome :=
  match g.add_volume (buildVolumeData c rootId) with
  | Except.error e => Except.error e
  | Except.ok AddResult.alreadyAdded => Except.ok EOutcome.alreadyPresent
  | Except.ok (AddResult.result vid) =>
    if vid.truthy = false then Except.ok EOutcome.noVolumeId
    else
      match g.get_volume vid with
      | Except.error e => Except.error e
      | Except.ok vol =>
        if copyFiles = false then Except.ok (EOutcome.created (canonOfComic c) 0)
        else if vol.issues = [] then Except.ok (EOutcome.created (canonOfComic c) 0)
        else if (vol.folder).truthy = false then Except.ok (EOutcome.created (canonOfComic c) 0)
        else
          Except.ok (EOutcome.created (canonOfComic c)
            (downloadCount g dryRun (g.get_comic_info (comicvineIdOf c)) vol.issues))

/-- Exception-aware model of one iteration of the `migrate_comics` loop
(lines 806-984). The `is_volume_added` pre-check at line 824 runs before the
`try` block begins at line 846, so an exception it raises propagates out of
the loop; exceptions inside `tryBody` are caught and logged (line 983). -/
def processComicExc (g : Gateways) (rootId : Int) (copyFiles dryRun : Bool) (c : RawComic) :
    Except String EOutcome :=
  if (comicvineIdOf c).truthy = false then Except.ok EOutcome.skipped
  else
    match g.is_volume_added (comicvineIdOf c) with
    | Except.error e => Except.error e
    | Except.ok true => Except.ok EOutcome.alreadyPresent
    | Except.ok false =>
      match tryBody g rootId copyFiles dryRun c with
      | Except.ok o => Except.ok o
      | Except.error e => Except.ok (EOutcome.failed e)

/-- Exception-aware model of the whole loop: an uncaught per-entry exception
aborts the remainder of the run (there is no handler around the `for` loop
of `migrate_comics`). -/
def runExc (g : Gateways) (rootId : Int) (copyFiles dryRun : Bool) :
    List RawComic → Except String (List EOutcome)
  | [] => Except.ok []
  | c :: rest =>
    match processComicExc g rootId copyFiles dryRun c with
    | Except.error e => Except.error e
    | Except.ok o =>
      match runExc g rootId copyFiles dryRun rest with
      | Except.error e => Except.error e
      | Except.ok os => Except.ok (o :: os)

/-- `convert_path_to_kapowarr`, second half (lines 546-554): host path to
"Kapowarr format". -/
def hostToKapowarr (host_path mylar_root kapowarr_root : String) : String :=
  if pyStartsWith host_path mylar_root then pyReplace host_path mylar_root kapowarr_root
  else if pyStartsWith host_path kapowarr_root then host_path
  else host_path

/-- `convert_path_to_kapowarr` (lines 523-556). -/
def convert_path_to_kapowarr (mylar_path mylar_root kapowarr_root : String) : String :=
  hostToKapowarr
    (if pyStartsWith mylar_path "/comics/" then pyReplace mylar_path "/comics/" (mylar_root ++ "/")
     else mylar_path)
    mylar_root kapowarr_root

/-- The Kapowarr-container-path to host-path conversion performed in
`migrate_comics` (lines 892-895). -/
def kapowarrFolderToHost (kapowarr_folder kapowarr_root : String) : String :=
  if pyStartsWith kapowarr_folder "/comics-1/" then
    pyReplace kapowarr_folder "/comics-1/" (kapowarr_root ++ "/")
  else osPathJoin kapowarr_root (lstripSlashes kapowarr_folder)

/-- A Mylar file record as read by `copy_files_to_kapowarr`
(lines 681-707). `issue_number` holds the value of
`file_info.get("issue_number", "")`. -/
structure FileInfo where
  file_path : String
  issue_number : String
  deriving DecidableEq, Repr

/-- Container-to-host conversion of a source path (lines 685-688). -/
def mylarSourceHost (mylar_root source_path : String) : String :=
  if pyStartsWith source_path "/comics/" then pyReplace source_path "/comics/" (mylar_root ++ "/")
  else source_path

/-- Source-path resolution including the alternative-relative-path fallback
(lines 685-696), with `os.path.isfile` modelled as membership in the path
list `fs`. -/
def resolveSourceHost (mylar_root : String) (fs : List String) (source_path : String) : String :=
  if fs.contains (mylarSourceHost mylar_root source_path) = false ∧
      pyStartsWith (mylarSourceHost mylar_root source_path) mylar_root = false then
    if fs.contains (osPathJoin mylar_root (lstripSlashes (mylarSourceHost mylar_root source_path))) then
      osPathJoin mylar_root (lstripSlashes (mylarSourceHost mylar_root source_path))
    else mylarSourceHost mylar_root source_path
  else mylarSourceHost mylar_root source_path

/-- Destination path computation (lines 702-712): basename of the container
path, with a ` #NNN` suffix (zero-padded to width 3) inserted before the
extension when the issue number is truthy and not already present as a
`#`-token in the filename. -/
def destHostPath (host_volume_folder : String) (fi : FileInfo) : String :=
  if fi.issue_number ≠ "" ∧
      hashNumSearch fi.issue_number.toList (basename fi.file_path).toList = false then
    osPathJoin host_volume_folder
      (String.mk (splitextChars (basename fi.file_path).toList).1 ++ " #" ++
        zfill 3 fi.issue_number ++ String.mk (splitextChars (basename fi.file_path).toList).2)
  else osPathJoin host_volume_folder (basename fi.file_path)

/-- One iteration of the direct-copy loop (lines 681-731, `dry_run=False`):
skip a missing source file; count an already-existing destination file as
copied without writing; otherwise copy (adding the destination to the
filesystem) and count. -/
def copyOneFile (mylar_root host_folder : String) (st : Nat × List String) (fi : FileInfo) :
    Nat × List String :=
  if st.2.contains (resolveSourceHost mylar_root st.2 fi.file_path) = false then st
  else if st.2.contains (destHostPath host_folder fi) then (st.1 + 1, st.2)
  else (st.1 + 1, destHostPath host_folder fi :: st.2)

/-- The host destination folder (lines 668-677): ensure the `/comics-1/`
container prefix, then rebase it onto the Kapowarr host root. -/
def hostVolumeFolder (volume_folder kapowarr_root : String) : String :=
  pyReplace
    (if pyStartsWith volume_folder "/comics-1/" then volume_folder
     else osPathJoin "/comics-1" volume_folder)
    "/comics-1/" (kapowarr_root ++ "/")

/-- `copy_files_to_kapowarr` in direct-copy mode with `dry_run=False`
(lines 583-591 and 668-732; the `use_kapowarr_import` branch is a different
mode and is not modelled). The filesystem is the list `fs` of existing file
paths; the result is the copied count and the updated filesystem. -/
def copy_files_to_kapowarr (files : List FileInfo)
    (volume_folder mylar_root kapowarr_root : String) (fs : List String) : Nat × List String :=
  if files = [] then (0, fs)
  else if volume_folder = "" then (0, fs)
  else files.foldl (copyOneFile mylar_root (hostVolumeFolder volume_folder kapowarr_root)) (0, fs)

/-- Concrete comic fixture: the spec's scenario entry
`{title:"Foo", id:"4050-999", status:"Active"}`. -/
def cFoo : RawComic :=
  { id := PyVal.str "4050-999", ComicID := PyVal.none, comicid := PyVal.none,
    name := PyVal.str "Foo", ComicName := PyVal.none, Title := PyVal.none,
    status := PyVal.str "Active", Status := PyVal.none }

/-- Concrete comic fixture with a non-active status. -/
def cBar : RawComic :=
  { id := PyVal.str "4050-1000", ComicID := PyVal.none, comicid := PyVal.none,
    name := PyVal.str "Bar", ComicName := PyVal.none, Title := PyVal.none,
    status := PyVal.str "Ended", Status := PyVal.none }

/-- Concrete comic fixture missing every recognized id key. -/
def cNoId : RawComic :=
  { id := PyVal.none, ComicID := PyVal.none, comicid := PyVal.none,
    name := PyVal.str "Ghost", ComicName := PyVal.none, Title := PyVal.none,
    status := PyVal.none, Status := PyVal.none }

/-- Concrete comic fixture whose id and title keys are present but falsy. -/
def cFalsy : RawComic :=
  { id := PyVal.str "", ComicID := PyVal.int 0, comicid := PyVal.none,
    name := PyVal.str "", ComicName := PyVal.int 0, Title := PyVal.str "",
    status := PyVal.none, Status := PyVal.none }

/-- Gateway fixture whose Kapowarr existence check raises on every call. -/
def gAbort : Gateways :=
  { is_volume_added := fun _ => Except.error "connection refused"
    add_volume := fun _ => Except.ok AddResult.alreadyAdded
    get_volume := fun _ => Except.ok { folder := PyVal.none, issues := [] }
    get_comic_info := fun _ => []
    download_issue := fun _ => Except.ok Option.none }

/-- Gateway fixture whose existence check succeeds but whose every other
fallible operation raises. -/
def gFlaky : Gateways :=
  { is_volume_added := fun _ => Except.ok false
    add_volume := fun _ => Except.error "HTTP 500"
    get_volume := fun _ => Except.error "HTTP 500"
    get_comic_info := fun _ => []
    download_issue := fun _ => Except.error "HTTP 500" }

/-- Mylar issue fixture: number `"1"`, no `id` key. -/
def miNoId : MylarIssue :=
  { issue_number := PyVal.str "1", Issue_Number := PyVal.none, IssueNumber := PyVal.none,
    number := PyVal.none, id := PyVal.none }

/-- Mylar issue fixture: number `"1"`, truthy `id`. -/
def miWithId : MylarIssue :=
  { issue_number := PyVal.str "1", Issue_Number := PyVal.none, IssueNumber := PyVal.none,
    number := PyVal.none, id := PyVal.str "101" }

/-- File fixture: a container-side source path with issue number "1". -/
def fileFoo : FileInfo :=
  { file_path := "/comics/Marvel/Foo/Foo 001.cbz", issue_number := "1" }

theorem splitOnChar_ne_nil (sep : Char) (l : List Char) : splitOnChar sep l ≠ [] := by
  cases l with
  | nil => simp [splitOnChar]
  | cons c cs =>
    simp only [splitOnChar]
    split
    · simp
    · split <;> simp

theorem splitOnChar_of_not_contains (sep : Char) (l : List Char)
    (h : l.contains sep = false) : splitOnChar sep l = [l] := by
  induction l with
  | nil => rfl
  | cons c cs ih =>
    simp only [List.contains_cons, Bool.or_eq_false_iff, beq_eq_false_iff_ne] at h
    obtain ⟨h1, h2⟩ := h
    have ihe := ih h2
    simp only [splitOnChar, ihe]
    rw [if_neg (by exact fun he => h1 he.symm)]

theorem splitOnChar_length_ge_two (sep : Char) (l : List Char)
    (h : l.contains sep = true) : 2 ≤ (splitOnChar sep l).length := by
  induction l with
  | nil => simp [List.contains] at h
  | cons c cs ih =>
    simp only [splitOnChar]
    by_cases hc : c = sep
    · rw [if_pos hc]
      have := splitOnChar_ne_nil sep cs
      have hlen : 1 ≤ (splitOnChar sep cs).length := by
        cases hcs : splitOnChar sep cs with
        | nil => exact absurd hcs this
        | cons a b => simp
      simpa using hlen
    · rw [if_neg hc]
      have hcs : cs.contains sep = true := by
        simp only [List.contains_cons] at h
        rcases Bool.or_eq_true_iff.mp h with h' | h'
        · exact absurd (beq_iff_eq.mp h').symm hc
        · exact h'
      have ihl := ih hcs
      cases hsp : splitOnChar sep cs with
      | nil => exact absurd hsp (splitOnChar_ne_nil sep cs)
      | cons a b =>
        rw [hsp] at ihl
        simpa using ihl

theorem getLastD_irrel {α : Type} (l : List α) (a b : α) (h : l ≠ []) :
    l.getLastD a = l.getLastD b := by
  cases l with
  | nil => exact absurd rfl h
  | cons x xs => rw [List.getLastD_cons, List.getLastD_cons]

theorem splitOnChar_last_spec (sep : Char) (l : List Char) (h : l.contains sep = true) :
    ∃ p, l = p ++ sep :: ((splitOnChar sep l).getLastD []) ∧
      ((splitOnChar sep l).getLastD []).contains sep = false := by
  induction l with
  | nil => simp [List.contains] at h
  | cons c cs ih =>
    by_cases hc : c = sep
    · subst hc
      have hspc : splitOnChar c (c :: cs) = [] :: splitOnChar c cs := by
        simp [splitOnChar]
      by_cases hcs : cs.contains c = true
      · obtain ⟨p, hp, hnc⟩ := ih hcs
        have hlast : (splitOnChar c (c :: cs)).getLastD [] = (splitOnChar c cs).getLastD [] := by
          rw [hspc, List.getLastD_cons]
        refine ⟨c :: p, ?_, ?_⟩
        · rw [hlast]
          conv_lhs => rw [hp]
          rw [List.cons_append]
        · rw [hlast]; exact hnc
      · have hf : cs.contains c = false := by
          cases hcc : cs.contains c
          · rfl
          · exact absurd hcc hcs
        have hsp := splitOnChar_of_not_contains c cs hf
        have hlast : (splitOnChar c (c :: cs)).getLastD [] = cs := by
          rw [hspc, List.getLastD_cons, hsp, List.getLastD_cons, List.getLastD_nil]
        refine ⟨[], ?_, ?_⟩
        · rw [hlast]; rfl
        · rw [hlast]; exact hf
    · have hcs : cs.contains sep = true := by
        simp only [List.contains_cons] at h
        rcases Bool.or_eq_true_iff.mp h with h' | h'
        · exact absurd (beq_iff_eq.mp h').symm hc
        · exact h'
      obtain ⟨p, hp, hnc⟩ := ih hcs
      have h2 := splitOnChar_length_ge_two sep cs hcs
      cases hsp : splitOnChar sep cs with
      | nil => exact absurd hsp (splitOnChar_ne_nil sep cs)
      | cons a b =>
        have hb : b ≠ [] := by
          rw [hsp] at h2
          cases b
          · simp at h2
          · simp
        have hspc : splitOnChar sep (c :: cs) = (c :: a) :: b := by
          simp only [splitOnChar, if_neg hc, hsp]
        have hlast : (splitOnChar sep (c :: cs)).getLastD [] = (splitOnChar sep cs).getLastD [] := by
          rw [hspc, hsp, List.getLastD_cons, List.getLastD_cons]
          exact getLastD_irrel b _ _ hb
        refine ⟨c :: p, ?_, ?_⟩
        · rw [hlast]
          conv_lhs => rw [hp]
          rw [List.cons_append]
        · rw [hlast]; exact hnc

theorem canonicalExternalId_of_not_contains (s : String)
    (h : s.toList.contains '-' = false) : canonicalExternalId s = s := by
  unfold canonicalExternalId
  rw [if_neg (fun hc => by rw [h] at hc; exact Bool.false_ne_true hc)]

theorem canonicalExternalId_no_sep (s : String) :
    (canonicalExternalId s).toList.contains '-' = false := by
  by_cases h : s.toList.contains '-' = true
  · obtain ⟨p, _, hnc⟩ := splitOnChar_last_spec '-' s.toList h
    unfold canonicalExternalId
    rw [if_pos h]
    exact hnc
  · have hf : s.toList.contains '-' = false := by
      cases hc : s.toList.contains '-'
      · rfl
      · exact absurd hc h
    rw [canonicalExternalId_of_not_contains s hf]
    exact hf

theorem canonicalExternalId_idem (s : String) :
    canonicalExternalId (canonicalExternalId s) = canonicalExternalId s :=
  canonicalExternalId_of_not_contains _ (canonicalExternalId_no_sep s)

theorem buildVolumeData_cv (c : RawComic) (r : Int) :
    (buildVolumeData c r).comicvine_id = canonOfComic c := by
  unfold buildVolumeData
  split <;> rfl

theorem processComic_state (rootId : Int) (vols : List PyVal) (c : RawComic) :
    (processComic rootId vols c).2 = vols ∨
      ((processComic rootId vols c).2 = vols ++ [PyVal.str (canonOfComic c)] ∧
        isVolumeAdded vols (PyVal.str (canonOfComic c)) = false) := by
  unfold processComic add_volume
  by_cases h1 : (comicvineIdOf c).truthy = false
  · rw [if_pos h1]; exact Or.inl rfl
  · rw [if_neg h1]
    by_cases h2 : isVolumeAdded vols (comicvineIdOf c) = true
    · rw [if_pos h2]; exact Or.inl rfl
    · rw [if_neg h2]
      by_cases h3 : isVolumeAdded vols (PyVal.str (buildVolumeData c rootId).comicvine_id) = true
      · rw [if_pos h3]; exact Or.inl rfl
      · rw [if_neg h3]
        right
        rw [buildVolumeData_cv] at h3 ⊢
        refine ⟨rfl, ?_⟩
        cases hb : isVolumeAdded vols (PyVal.str (canonOfComic c))
        · rfl
        · exact absurd hb h3

theorem runEngine_state (rootId : Int) (cs : List RawComic) :
    ∀ vols, ∃ ext, (runEngine rootId vols cs).2 = vols ++ ext := by
  induction cs with
  | nil => exact fun vols => ⟨[], by simp [runEngine]⟩
  | cons c rest ih =>
    intro vols
    rcases processComic_state rootId vols c with h | ⟨h, _⟩
    · obtain ⟨ext, he⟩ := ih (processComic rootId vols c).2
      refine ⟨ext, ?_⟩
      show (runEngine rootId (processComic rootId vols c).2 rest).2 = vols ++ ext
      rw [he, h]
    · obtain ⟨ext, he⟩ := ih (processComic rootId vols c).2
      refine ⟨[PyVal.str (canonOfComic c)] ++ ext, ?_⟩
      show (runEngine rootId (processComic rootId vols c).2 rest).2 = _
      rw [he, h, List.append_assoc]

theorem isVolumeAdded_append (vols ext : List PyVal) (cid : PyVal)
    (h : isVolumeAdded vols cid = true) : isVolumeAdded (vols ++ ext) cid = true := by
  unfold isVolumeAdded at h ⊢
  rw [List.any_append, h, Bool.true_or]

theorem isVolumeAdded_append_self (vols : List PyVal) (x : PyVal) :
    isVolumeAdded (vols ++ [x]) x = true := by
  unfold isVolumeAdded
  rw [List.any_append]
  simp

theorem processComic_covers (rootId : Int) (vols : List PyVal) (c : RawComic)
    (ht : (comicvineIdOf c).truthy = true) :
    isVolumeAdded (processComic rootId vols c).2 (comicvineIdOf c) = true ∨
      isVolumeAdded (processComic rootId vols c).2 (PyVal.str (canonOfComic c)) = true := by
  unfold processComic add_volume
  rw [if_neg (fun hf => by rw [ht] at hf; exact Bool.noConfusion hf)]
  by_cases h2 : isVolumeAdded vols (comicvineIdOf c) = true
  · rw [if_pos h2]; exact Or.inl h2
  · rw [if_neg h2]
    by_cases h3 : isVolumeAdded vols (PyVal.str (buildVolumeData c rootId).comicvine_id) = true
    · rw [if_pos h3]
      right
      rw [buildVolumeData_cv] at h3
      exact h3
    · rw [if_neg h3]
      right
      rw [buildVolumeData_cv]
      exact isVolumeAdded_append_self vols _

theorem runEngine_covers (rootId : Int) (cs : List RawComic) :
    ∀ vols, ∀ c ∈ cs, (comicvineIdOf c).truthy = true →
      isVolumeAdded (runEngine rootId vols cs).2 (comicvineIdOf c) = true ∨
        isVolumeAdded (runEngine rootId vols cs).2 (PyVal.str (canonOfComic c)) = true := by
  induction cs with
  | nil => intro vols c hc; exact absurd hc (List.not_mem_nil c)
  | cons c0 rest ih =>
    intro vols c hc ht
    have hsnd : (runEngine rootId vols (c0 :: rest)).2
        = (runEngine rootId (processComic rootId vols c0).2 rest).2 := rfl
    rcases List.mem_cons.mp hc with rfl | hmem
    · obtain ⟨ext, he⟩ := runEngine_state rootId rest (processComic rootId vols c).2
      rw [hsnd, he]
      rcases processComic_covers rootId vols c ht with h | h
      · exact Or.inl (isVolumeAdded_append _ _ _ h)
      · exact Or.inr (isVolumeAdded_append _ _ _ h)
    · rw [hsnd]
      exact ih (processComic rootId vols c0).2 c hmem ht

theorem processComic_already (rootId : Int) (V : List PyVal) (c : RawComic)
    (h : (comicvineIdOf c).truthy = true →
      isVolumeAdded V (comicvineIdOf c) = true ∨
        isVolumeAdded V (PyVal.str (canonOfComic c)) = true) :
    processComic rootId V c
      = (if (comicvineIdOf c).truthy = true then POutcome.alreadyPresent else POutcome.skipped,
          V) := by
  cases ht : (comicvineIdOf c).truthy with
  | false =>
    unfold processComic
    rw [ht]
    rfl
  | true =>
    rcases h ht with hpre | hcanon
    · unfold processComic
      rw [ht, if_neg (fun hf => Bool.noConfusion hf), if_pos hpre]
      rfl
    · by_cases h2 : isVolumeAdded V (comicvineIdOf c) = true
      · unfold processComic
        rw [ht, if_neg (fun hf => Bool.noConfusion hf), if_pos h2]
        rfl
      · unfold processComic add_volume
        rw [ht, if_neg (fun hf => Bool.noConfusion hf), if_neg h2]
        have h3 : isVolumeAdded V (PyVal.str (buildVolumeData c rootId).comicvine_id) = true := by
          rw [buildVolumeData_cv]
          exact hcanon
        rw [if_pos h3]
        rfl

theorem runEngine_already (rootId : Int) (cs : List RawComic) (V : List PyVal)
    (h : ∀ c ∈ cs, (comicvineIdOf c).truthy = true →
      isVolumeAdded V (comicvineIdOf c) = true ∨
        isVolumeAdded V (PyVal.str (canonOfComic c)) = true) :
    runEngine rootId V cs
      = (cs.map (fun c =>
          if (comicvineIdOf c).truthy = true then POutcome.alreadyPresent else POutcome.skipped),
          V) := by
  induction cs with
  | nil => rfl
  | cons c rest ih =>
    have hc := processComic_already rootId V c (h c (List.mem_cons_self c rest))
    have hrest := ih (fun c' hc' => h c' (List.mem_cons_of_mem c hc'))
    show ((processComic rootId V c).1 ::
        (runEngine rootId (processComic rootId V c).2 rest).1,
        (runEngine rootId (processComic rootId V c).2 rest).2) = _
    rw [hc]
    simp only [List.map_cons]
    rw [hrest]

theorem processComic_preserves (rootId : Int) (vols : List PyVal) (c : RawComic)
    (h1 : ∀ v ∈ vols, canonicalExternalId v.toPyStr = v.toPyStr)
    (h2 : (vols.map (fun v => canonicalExternalId v.toPyStr)).Nodup) :
    (∀ v ∈ (processComic rootId vols c).2, canonicalExternalId v.toPyStr = v.toPyStr) ∧
      ((processComic rootId vols c).2.map (fun v => canonicalExternalId v.toPyStr)).Nodup := by
  rcases processComic_state rootId vols c with h | ⟨h, hnew⟩
  · rw [h]; exact ⟨h1, h2⟩
  · rw [h]
    have hx : canonicalExternalId (PyVal.str (canonOfComic c)).toPyStr
        = (PyVal.str (canonOfComic c)).toPyStr := by
      show canonicalExternalId (canonOfComic c) = canonOfComic c
      exact canonicalExternalId_idem _
    have hne : ∀ v ∈ vols, v.toPyStr ≠ (PyVal.str (canonOfComic c)).toPyStr := by
      intro v hv heq
      have : isVolumeAdded vols (PyVal.str (canonOfComic c)) = true := by
        unfold isVolumeAdded
        rw [List.any_eq_true]
        exact ⟨v, hv, beq_iff_eq.mpr heq⟩
      rw [this] at hnew
      exact Bool.noConfusion hnew
    constructor
    · intro v hv
      rcases List.mem_append.mp hv with hv | hv
      · exact h1 v hv
      · rw [List.mem_singleton.mp hv]
        exact hx
    · rw [List.map_append]
      rw [List.nodup_append]
      refine ⟨h2, by simp, ?_⟩
      intro a ha hb
      rcases List.mem_map.mp ha with ⟨v, hv, hva⟩
      simp only [List.map_cons, List.map_nil, List.mem_singleton] at hb
      rw [hx] at hb
      apply hne v hv
      rw [← h1 v hv, hva, hb]

theorem runEngine_preserves (rootId : Int) (cs : List RawComic) :
    ∀ vols, (∀ v ∈ vols, canonicalExternalId v.toPyStr = v.toPyStr) →
      (vols.map (fun v => canonicalExternalId v.toPyStr)).Nodup →
      (∀ v ∈ (runEngine rootId vols cs).2, canonicalExternalId v.toPyStr = v.toPyStr) ∧
        ((runEngine rootId vols cs).2.map (fun v => canonicalExternalId v.toPyStr)).Nodup := by
  induction cs with
  | nil => intro vols h1 h2; exact ⟨h1, h2⟩
  | cons c rest ih =>
    intro vols h1 h2
    have hp := processComic_preserves rootId vols c h1 h2
    exact ih (processComic rootId vols c).2 hp.1 hp.2

/-- C1. Run idempotence: from any Source/Target state in which Kapowarr's
stored external ids are canonical and pairwise distinct, a second engine run
over the same comic list classifies every entry with a resolvable (truthy)
external id as already present — via the pre-check or via the folded
`VolumeAlreadyAdded` — creates no new Kapowarr volume (the volume list is
unchanged), and the final volume list still holds at most one volume per
distinct canonicalized external id. -/
theorem second_run_idempotent (rootId : Int) (vols : List PyVal) (comics : List RawComic)
    (h1 : ∀ v ∈ vols, canonicalExternalId v.toPyStr = v.toPyStr)
    (h2 : (vols.map (fun v => canonicalExternalId v.toPyStr)).Nodup) :
    runEngine rootId (runEngine rootId vols comics).2 comics
      = (comics.map (fun c =>
          if (comicvineIdOf c).truthy = true then POutcome.alreadyPresent else POutcome.skipped),
          (runEngine rootId vols comics).2) ∧
      (((runEngine rootId vols comics).2.map (fun v => canonicalExternalId v.toPyStr))).Nodup := by
  constructor
  · exact runEngine_already rootId comics (runEngine rootId vols comics).2
      (fun c hc ht => runEngine_covers rootId comics vols c hc ht)
  · exact (runEngine_preserves rootId comics vols h1 h2).2

/-- C1 witness: a concrete two-entry catalog over an initially canonical
one-volume Kapowarr state. -/
theorem second_run_idempotent_witness :
    (∀ v ∈ [PyVal.str "145299"], canonicalExternalId v.toPyStr = v.toPyStr) ∧
      (([PyVal.str "145299"].map (fun v => canonicalExternalId v.toPyStr))).Nodup ∧
      (runEngine 2 (runEngine 2 [PyVal.str "145299"] [cFoo, cBar]).2 [cFoo, cBar]
        = ([POutcome.alreadyPresent, POutcome.alreadyPresent],
            (runEngine 2 [PyVal.str "145299"] [cFoo, cBar]).2) ∧
        (((runEngine 2 [PyVal.str "145299"] [cFoo, cBar]).2.map
            (fun v => canonicalExternalId v.toPyStr))).Nodup) := by
  refine ⟨by decide, by decide, ?_⟩
  have h := second_run_idempotent 2 [PyVal.str "145299"] [cFoo, cBar] (by decide) (by decide)
  exact ⟨by rw [h.1]; decide, h.2⟩

/-- C9. `canonicalExternalId`: the two concrete examples from the spec, and
the general law — an id without the separator is returned unchanged, and an
id containing the separator is cut down to exactly the (separator-free)
substring after its last separator. -/
theorem canonicalExternalId_spec :
    canonicalExternalId "4050-145299" = "145299" ∧
    canonicalExternalId "145299" = "145299" ∧
    ∀ raw : String,
      (raw.toList.contains '-' = false → canonicalExternalId raw = raw) ∧
      (raw.toList.contains '-' = true →
        ∃ p, raw.toList = p ++ '-' :: (canonicalExternalId raw).toList ∧
          (canonicalExternalId raw).toList.contains '-' = false) := by
  refine ⟨by decide, by decide, fun raw => ⟨canonicalExternalId_of_not_contains raw, ?_⟩⟩
  intro h
  have he : (canonicalExternalId raw).toList = (splitOnChar '-' raw.toList).getLastD [] := by
    unfold canonicalExternalId
    rw [if_pos h]
    rfl
  obtain ⟨p, hp, hnc⟩ := splitOnChar_last_spec '-' raw.toList h
  refine ⟨p, ?_, ?_⟩
  · rw [he]; exact hp
  · rw [he]; exact hnc

/-- C9 witness: the general law instantiated at the spec's two examples. -/
theorem canonicalExternalId_spec_witness :
    ("4050-145299".toList.contains '-' = true) ∧
      (∃ p, "4050-145299".toList = p ++ '-' :: (canonicalExternalId "4050-145299").toList ∧
        (canonicalExternalId "4050-145299").toList.contains '-' = false) ∧
      ("145299".toList.contains '-' = false) ∧
      canonicalExternalId "145299" = "145299" :=
  ⟨by decide, (canonicalExternalId_spec.2.2 "4050-145299").2 (by decide), by decide,
    (canonicalExternalId_spec.2.2 "145299").1 (by decide)⟩

theorem pyOr_of_falsy (a b : PyVal) (h : a.truthy = false) : pyOr a b = b := by
  unfold pyOr
  rw [h]
  rfl

/-- C5. An entry missing every recognized id key normalizes to an absent
(falsy) external id, is classified Skipped with the Kapowarr state
untouched, and raises no exception: the exception-aware model returns
`ok skipped` under every gateway behavior. -/
theorem missing_id_skipped (c : RawComic) (rootId : Int) (vols : List PyVal)
    (g : Gateways) (copyFiles dryRun : Bool)
    (h1 : c.id = PyVal.none) (h2 : c.ComicID = PyVal.none) (h3 : c.comicid = PyVal.none) :
    (comicvineIdOf c).truthy = false ∧
      processComic rootId vols c = (POutcome.skipped, vols) ∧
      processComicExc g rootId copyFiles dryRun c = Except.ok EOutcome.skipped := by
  have ht : (comicvineIdOf c).truthy = false := by
    unfold comicvineIdOf
    rw [h1, h2, h3]
    rfl
  refine ⟨ht, ?_, ?_⟩
  · unfold processComic
    rw [if_pos ht]
  · unfold processComicExc
    rw [if_pos ht]

/-- C5 witness: the concrete no-id entry against failing gateways. -/
theorem missing_id_skipped_witness :
    cNoId.id = PyVal.none ∧ cNoId.ComicID = PyVal.none ∧ cNoId.comicid = PyVal.none ∧
      ((comicvineIdOf cNoId).truthy = false ∧
        processComic 2 [] cNoId = (POutcome.skipped, []) ∧
        processComicExc gFlaky 2 true false cNoId = Except.ok EOutcome.skipped) :=
  ⟨rfl, rfl, rfl, missing_id_skipped cNoId 2 [] gFlaky true false rfl rfl rfl⟩

/-- C6. Minimal creation spec: when the normalized status equals "active",
the request built for `add_volume` is exactly the canonical external id and
the integer root folder id with both monitor keys omitted; for every other
status the request additionally sets `monitor = false` and
`monitor_new_issues = false`. -/
theorem creation_spec_minimal (c : RawComic) (rootId : Int) :
    (comicStatusNorm c = PyVal.str "active" →
      buildVolumeData c rootId
        = { comicvine_id := canonOfComic c, root_folder_id := rootId,
            monitor := Option.none, monitor_new_issues := Option.none }) ∧
    (comicStatusNorm c ≠ PyVal.str "active" →
      buildVolumeData c rootId
        = { comicvine_id := canonOfComic c, root_folder_id := rootId,
            monitor := some false, monitor_new_issues := some false }) := by
  constructor
  · intro h
    have hm : comicMonitored c = true := by
      unfold comicMonitored
      exact decide_eq_true h
    unfold buildVolumeData
    rw [if_pos hm]
  · intro h
    have hm : comicMonitored c = false := by
      unfold comicMonitored
      exact decide_eq_false h
    unfold buildVolumeData
    rw [if_neg (fun hf => by rw [hm] at hf; exact Bool.noConfusion hf)]

/-- C6 witness: the spec scenario entry (status "Active", id "4050-999")
gets a flagless request with id "999", and a non-active entry gets both
monitor flags set false. -/
theorem creation_spec_minimal_witness :
    (comicStatusNorm cFoo = PyVal.str "active" ∧
      buildVolumeData cFoo 2
        = { comicvine_id := "999", root_folder_id := 2,
            monitor := Option.none, monitor_new_issues := Option.none }) ∧
    (comicStatusNorm cBar ≠ PyVal.str "active" ∧
      buildVolumeData cBar 2
        = { comicvine_id := "1000", root_folder_id := 2,
            monitor := some false, monitor_new_issues := some false }) := by
  constructor
  · refine ⟨by decide, ?_⟩
    rw [(creation_spec_minimal cFoo 2).1 (by decide)]
    decide
  · refine ⟨by decide, ?_⟩
    rw [(creation_spec_minimal cBar 2).2 (by decide)]
    decide

/-- C10. Present-but-falsy values behave like missing ones: an entry whose
three id keys all hold falsy values (such as `""`, `0` or `None`) is Skipped
exactly as when the keys are missing, and when the three title keys all hold
falsy values the title normalizes to the sentinel "Unknown Title". -/
theorem falsy_fields_like_missing (c : RawComic) (rootId : Int) (vols : List PyVal) :
    (c.id.truthy = false → c.ComicID.truthy = false → c.comicid.truthy = false →
      processComic rootId vols c = (POutcome.skipped, vols)) ∧
    (c.name.truthy = false → c.ComicName.truthy = false → c.Title.truthy = false →
      comicTitle c = PyVal.str "Unknown Title") := by
  constructor
  · intro h1 h2 h3
    have ht : (comicvineIdOf c).truthy = false := by
      unfold comicvineIdOf
      rw [pyOr_of_falsy _ _ h1, pyOr_of_falsy _ _ h2]
      exact h3
    unfold processComic
    rw [if_pos ht]
  · intro h1 h2 h3
    unfold comicTitle
    rw [pyOr_of_falsy _ _ h1, pyOr_of_falsy _ _ h2, pyOr_of_falsy _ _ h3]

/-- C10 witness: an entry whose id keys hold `""`, `0`, `None` and whose
title keys hold `""`, `0`, `""`. -/
theorem falsy_fields_like_missing_witness :
    (cFalsy.id.truthy = false ∧ cFalsy.ComicID.truthy = false ∧
      cFalsy.comicid.truthy = false ∧
      processComic 2 [] cFalsy = (POutcome.skipped, [])) ∧
    (cFalsy.name.truthy = false ∧ cFalsy.ComicName.truthy = false ∧
      cFalsy.Title.truthy = false ∧
      comicTitle cFalsy = PyVal.str "Unknown Title") := by
  constructor
  · exact ⟨by decide, by decide, by decide,
      (falsy_fields_like_missing cFalsy 2 []).1 (by decide) (by decide) (by decide)⟩
  · exact ⟨by decide, by decide, by decide,
      (falsy_fields_like_missing cFalsy 2 []).2 (by decide) (by decide) (by decide)⟩

theorem resumeIdx_none (rl : String) (l : List RawComic)
    (h : ∀ c ∈ l, pyLower (getS c.name).toPyStr ≠ rl) : resumeIdx rl l = Option.none := by
  induction l with
  | nil => rfl
  | cons c rest ih =>
    unfold resumeIdx
    rw [if_neg (h c (List.mem_cons_self c rest)),
      ih (fun c' hc' => h c' (List.mem_cons_of_mem c hc'))]
    rfl

theorem resumeIdx_first (rl : String) (l : List RawComic) :
    ∀ (i : Nat) (hi : i < l.length),
      pyLower (getS (l.get ⟨i, hi⟩).name).toPyStr = rl →
      (∀ j (hj : j < l.length), j < i → pyLower (getS (l.get ⟨j, hj⟩).name).toPyStr ≠ rl) →
      resumeIdx rl l = some i := by
  induction l with
  | nil => intro i hi; exact absurd hi (Nat.not_lt_zero i)
  | cons c rest ih =>
    intro i hi hmatch hbefore
    cases i with
    | zero =>
      have hm0 : pyLower (getS c.name).toPyStr = rl := hmatch
      unfold resumeIdx
      rw [if_pos hm0]
    | succ n =>
      have hb0 : pyLower (getS c.name).toPyStr ≠ rl :=
        hbefore 0 (Nat.succ_pos rest.length) (Nat.succ_pos n)
      unfold resumeIdx
      rw [if_neg hb0]
      have hm : pyLower (getS (rest.get ⟨n, Nat.lt_of_succ_lt_succ hi⟩).name).toPyStr = rl :=
        hmatch
      have hb : ∀ j (hj : j < rest.length), j < n →
          pyLower (getS (rest.get ⟨j, hj⟩).name).toPyStr ≠ rl :=
        fun j hj hjn => hbefore (j + 1) (Nat.succ_lt_succ hj) (Nat.succ_lt_succ hjn)
      rw [ih n (Nat.lt_of_succ_lt_succ hi) hm hb]
      rfl

/-- C7. Window ordering and best-effort resume: the engine truncates to the
first `limit` entries (when `limit > 0`), then searches only that truncated
list for a case-insensitive title match of `resumeFrom`; a first match at
position `i` drops exactly the entries before it, and no match keeps the
entire truncated list — all of its entries, not zero. -/
theorem window_best_effort (comics : List RawComic) (limit : Int) (r : String)
    (hl : 0 < limit) (hr : r ≠ "") :
    applyLimit comics limit = comics.take limit.toNat ∧
    ((∀ c ∈ comics.take limit.toNat, pyLower (getS c.name).toPyStr ≠ pyLower r) →
      applyWindow comics limit (some r) = comics.take limit.toNat) ∧
    (∀ i (hi : i < (comics.take limit.toNat).length),
      pyLower (getS ((comics.take limit.toNat).get ⟨i, hi⟩).name).toPyStr = pyLower r →
      (∀ j (hj : j < (comics.take limit.toNat).length), j < i →
        pyLower (getS ((comics.take limit.toNat).get ⟨j, hj⟩).name).toPyStr ≠ pyLower r) →
      applyWindow comics limit (some r) = (comics.take limit.toNat).drop i) := by
  have hal : applyLimit comics limit = comics.take limit.toNat := by
    unfold applyLimit
    rw [if_pos hl]
  have hres : ∀ (l : List RawComic),
      applyResume l (some r)
        = if r = "" then l
          else
            match resumeIdx (pyLower r) l with
            | some i => l.drop i
            | Option.none => l := fun l => rfl
  refine ⟨hal, ?_, ?_⟩
  · intro hn
    unfold applyWindow
    rw [hal, hres, if_neg hr, resumeIdx_none (pyLower r) (comics.take limit.toNat) hn]
  · intro i hi hmatch hbefore
    unfold applyWindow
    rw [hal, hres, if_neg hr,
      resumeIdx_first (pyLower r) (comics.take limit.toNat) i hi hmatch hbefore]

/-- C7 witness: the resume title "zzz" matches nothing in the two-entry
truncated window, so the whole truncated list is processed. -/
theorem window_best_effort_witness :
    (0 : Int) < 2 ∧ "zzz" ≠ "" ∧
      applyLimit [cFoo, cBar, cNoId] 2 = [cFoo, cBar] ∧
      applyWindow [cFoo, cBar, cNoId] 2 (some "zzz") = [cFoo, cBar] := by
  have h := window_best_effort [cFoo, cBar, cNoId] 2 "zzz" (by decide) (by decide)
  exact ⟨by decide, by decide, h.1.trans (by decide), (h.2.1 (by decide)).trans (by decide)⟩

/-- C4 counterexample: the target number "1" matches the first source issue
by number, yet the code returns the second issue (the first one carries no
truthy id, so the loop passes it over without breaking). -/
theorem matchIssue_not_first_cex :
    numberMatches (PyVal.str "1") miNoId = true ∧
    miNoId ≠ miWithId ∧
    matchMylarIssue (PyVal.str "1") [miNoId, miWithId] = some miWithId := by
  decide

/-- C4 amended: `matchIssue` returns the first source issue in input order
whose number string-matches AND whose `id` field is truthy (equivalently,
`List.find?` of that conjunction); in particular it returns none exactly
when no source issue satisfies both, and still returns none whenever no
source issue's number matches at all. -/
theorem matchIssue_first_with_id (target : PyVal) (issues : List MylarIssue) :
    matchMylarIssue target issues
      = issues.find? (fun mi => numberMatches target mi && (mi.id).truthy) ∧
    ((∀ mi ∈ issues, numberMatches target mi = false) →
      matchMylarIssue target issues = Option.none) := by
  have hfind : matchMylarIssue target issues
      = issues.find? (fun mi => numberMatches target mi && (mi.id).truthy) := by
    induction issues with
    | nil => rfl
    | cons mi rest ih =>
      cases h : (numberMatches target mi && (mi.id).truthy) with
      | true =>
        unfold matchMylarIssue
        rw [if_pos h]
        simp [List.find?, h]
      | false =>
        unfold matchMylarIssue
        rw [if_neg (by rw [h]; exact Bool.noConfusion), ih]
        simp [List.find?, h]
  refine ⟨hfind, ?_⟩
  intro hnone
  rw [hfind]
  apply List.find?_eq_none.mpr
  intro mi hmi
  simp [hnone mi hmi]

/-- C4 amended witness: concrete lists instantiating both the find-first
law and the no-number-match law. -/
theorem matchIssue_first_with_id_witness :
    matchMylarIssue (PyVal.str "1") [miNoId, miWithId]
      = [miNoId, miWithId].find?
          (fun mi => numberMatches (PyVal.str "1") mi && (mi.id).truthy) ∧
    (∀ mi ∈ [miWithId], numberMatches (PyVal.str "7") mi = false) ∧
    matchMylarIssue (PyVal.str "7") [miWithId] = Option.none :=
  ⟨(matchIssue_first_with_id (PyVal.str "1") [miNoId, miWithId]).1, by decide,
    (matchIssue_first_with_id (PyVal.str "7") [miWithId]).2 (by decide)⟩


/-- C3 counterexample: for the container path "/comics-1/Marvel/Foo",
translating to the host path and back through `convert_path_to_kapowarr`
yields the Kapowarr host path, not the original container path: the
conversion never reintroduces the "/comics-1/" container prefix. -/
theorem path_round_trip_cex :
    pyStartsWith "/comics-1/Marvel/Foo" "/comics-1/" = true ∧
    kapowarrFolderToHost "/comics-1/Marvel/Foo" "/mnt/kapowarr" = "/mnt/kapowarr/Marvel/Foo" ∧
    convert_path_to_kapowarr
        (kapowarrFolderToHost "/comics-1/Marvel/Foo" "/mnt/kapowarr")
        "/mnt/mylar" "/mnt/kapowarr"
      ≠ "/comics-1/Marvel/Foo" := by
  decide

/-- C3 amended: the round trip reproduces the host form of the path, not
the container form — on any output of `kapowarrFolderToHost` that is
neither Mylar-container-rooted nor Mylar-host-rooted,
`convert_path_to_kapowarr` returns its input unchanged. -/
theorem path_round_trip_amended (p mylar_root kapowarr_root : String)
    (h1 : pyStartsWith (kapowarrFolderToHost p kapowarr_root) "/comics/" = false)
    (h2 : pyStartsWith (kapowarrFolderToHost p kapowarr_root) mylar_root = false) :
    convert_path_to_kapowarr (kapowarrFolderToHost p kapowarr_root) mylar_root kapowarr_root
      = kapowarrFolderToHost p kapowarr_root := by
  unfold convert_path_to_kapowarr hostToKapowarr
  rw [if_neg (fun hc => Bool.noConfusion (h1.symm.trans hc)),
    if_neg (fun hc => Bool.noConfusion (h2.symm.trans hc))]
  split <;> rfl

/-- C3 amended witness: the concrete round trip is the identity on the host
path. -/
theorem path_round_trip_amended_witness :
    pyStartsWith (kapowarrFolderToHost "/comics-1/Marvel/Foo" "/mnt/kapowarr") "/comics/"
        = false ∧
    pyStartsWith (kapowarrFolderToHost "/comics-1/Marvel/Foo" "/mnt/kapowarr") "/mnt/mylar"
        = false ∧
    convert_path_to_kapowarr (kapowarrFolderToHost "/comics-1/Marvel/Foo" "/mnt/kapowarr")
        "/mnt/mylar" "/mnt/kapowarr"
      = kapowarrFolderToHost "/comics-1/Marvel/Foo" "/mnt/kapowarr" :=
  ⟨by decide, by decide,
    path_round_trip_amended "/comics-1/Marvel/Foo" "/mnt/mylar" "/mnt/kapowarr"
      (by decide) (by decide)⟩

theorem processComicExc_ok (g : Gateways) (rootId : Int) (cf dr : Bool) (c : RawComic)
    (h : ∀ v, ∃ b, g.is_volume_added v = Except.ok b) :
    ∃ o, processComicExc g rootId cf dr c = Except.ok o := by
  unfold processComicExc
  by_cases ht : (comicvineIdOf c).truthy = false
  · rw [if_pos ht]
    exact ⟨EOutcome.skipped, rfl⟩
  · rw [if_neg ht]
    obtain ⟨b, hb⟩ := h (comicvineIdOf c)
    rw [hb]
    cases b with
    | true => exact ⟨EOutcome.alreadyPresent, rfl⟩
    | false =>
      cases htb : tryBody g rootId cf dr c with
      | ok o => exact ⟨o, rfl⟩
      | error e => exact ⟨EOutcome.failed e, rfl⟩

/-- C2 counterexample: a failure raised by the Kapowarr existence pre-check
is NOT caught — it runs before the per-entry `try` block — so the whole
two-entry run aborts on the first entry instead of advancing. -/
theorem per_entry_isolation_cex :
    runExc gAbort 2 true false [cFoo, cBar] = Except.error "connection refused" := by
  rfl

/-- C2 amended: per-entry failure isolation holds for every failure raised
inside the per-entry `try` block (volume creation, detail fetch, downloads),
but not for the existence pre-check: whenever the pre-check itself never
raises, the run completes with exactly one outcome per entry regardless of
how every other gateway operation fails. -/
theorem per_entry_isolation_amended (g : Gateways) (rootId : Int) (cf dr : Bool)
    (comics : List RawComic)
    (h : ∀ v, ∃ b, g.is_volume_added v = Except.ok b) :
    ∃ os, runExc g rootId cf dr comics = Except.ok os ∧ os.length = comics.length := by
  induction comics with
  | nil => exact ⟨[], rfl, rfl⟩
  | cons c rest ih =>
    obtain ⟨o, ho⟩ := processComicExc_ok g rootId cf dr c h
    obtain ⟨os, hos, hlen⟩ := ih
    refine ⟨o :: os, ?_, by simp [hlen]⟩
    unfold runExc
    rw [ho, hos]

/-- C2 amended witness: against a gateway whose creation, detail and
download calls all raise, the two-entry run still yields two outcomes. -/
theorem per_entry_isolation_amended_witness :
    (∀ v, ∃ b, gFlaky.is_volume_added v = Except.ok b) ∧
      ∃ os, runExc gFlaky 2 true false [cFoo, cBar] = Except.ok os ∧ os.length = 2 :=
  ⟨fun _ => ⟨false, rfl⟩,
    per_entry_isolation_amended gFlaky 2 true false [cFoo, cBar] (fun _ => ⟨false, rfl⟩)⟩

theorem resolveSourceHost_of_present (mylar_root : String) (fs : List String) (sp : String)
    (h : fs.contains (mylarSourceHost mylar_root sp) = true) :
    resolveSourceHost mylar_root fs sp = mylarSourceHost mylar_root sp := by
  unfold resolveSourceHost
  rw [if_neg (fun hc => Bool.noConfusion (h.symm.trans hc.1))]

theorem contains_false_count_zero (l : List String) (a : String)
    (h : l.contains a = false) : l.count a = 0 := by
  have hnm : a ∉ l := by
    intro hm
    have ht : l.contains a = true := List.elem_iff.mpr hm
    exact Bool.noConfusion (ht.symm.trans h)
  exact List.count_eq_zero.mpr hnm

theorem copyOneFile_eval (mroot hfold : String) (n : Nat) (gs : List String) (f : FileInfo)
    (hg : gs.contains (mylarSourceHost mroot f.file_path) = true) :
    copyOneFile mroot hfold (n, gs) f
      = if gs.contains (destHostPath hfold f) then (n + 1, gs)
        else (n + 1, destHostPath hfold f :: gs) := by
  show (if gs.contains (resolveSourceHost mroot gs f.file_path) = false then (n, gs)
      else if gs.contains (destHostPath hfold f) then (n + 1, gs)
      else (n + 1, destHostPath hfold f :: gs)) = _
  rw [resolveSourceHost_of_present mroot gs f.file_path hg,
    if_neg (fun hc => Bool.noConfusion (hg.symm.trans hc))]

/-- C8. File placement idempotence in direct-copy mode: when the computed
destination path already holds a file the attempt is still counted as copied
with no write performed, and placing the same (existing) source file twice
leaves exactly one destination file: the second pass reports count 1 and an
unchanged filesystem. -/
theorem file_placement_idempotent (f : FileInfo) (vfold mroot kroot : String)
    (fs : List String) (hv : vfold ≠ "")
    (hs : fs.contains (mylarSourceHost mroot f.file_path) = true) :
    (fs.contains (destHostPath (hostVolumeFolder vfold kroot) f) = true →
      copy_files_to_kapowarr [f] vfold mroot kroot fs = (1, fs)) ∧
    (copy_files_to_kapowarr [f] vfold mroot kroot fs).1 = 1 ∧
    copy_files_to_kapowarr [f] vfold mroot kroot
        (copy_files_to_kapowarr [f] vfold mroot kroot fs).2
      = (1, (copy_files_to_kapowarr [f] vfold mroot kroot fs).2) ∧
    (fs.contains (destHostPath (hostVolumeFolder vfold kroot) f) = false →
      ((copy_files_to_kapowarr [f] vfold mroot kroot fs).2).count
          (destHostPath (hostVolumeFolder vfold kroot) f) = 1) := by
  have hstep : ∀ gs : List String, gs.contains (mylarSourceHost mroot f.file_path) = true →
      copy_files_to_kapowarr [f] vfold mroot kroot gs
        = if gs.contains (destHostPath (hostVolumeFolder vfold kroot) f) then (1, gs)
          else (1, destHostPath (hostVolumeFolder vfold kroot) f :: gs) := by
    intro gs hg
    unfold copy_files_to_kapowarr
    rw [if_neg (fun hc => List.noConfusion hc), if_neg hv]
    show copyOneFile mroot (hostVolumeFolder vfold kroot) (0, gs) f = _
    rw [copyOneFile_eval mroot (hostVolumeFolder vfold kroot) 0 gs f hg]
  by_cases hd : fs.contains (destHostPath (hostVolumeFolder vfold kroot) f) = true
  · have hrun : copy_files_to_kapowarr [f] vfold mroot kroot fs = (1, fs) := by
      rw [hstep fs hs, if_pos hd]
    refine ⟨fun _ => hrun, by rw [hrun], ?_, ?_⟩
    · rw [hrun]
      exact hrun
    · intro hdf
      exact absurd hd (by rw [hdf]; exact Bool.noConfusion)
  · have hrun : copy_files_to_kapowarr [f] vfold mroot kroot fs
        = (1, destHostPath (hostVolumeFolder vfold kroot) f :: fs) := by
      rw [hstep fs hs, if_neg hd]
    have hdf : fs.contains (destHostPath (hostVolumeFolder vfold kroot) f) = false := by
      cases hb : fs.contains (destHostPath (hostVolumeFolder vfold kroot) f)
      · rfl
      · exact absurd hb hd
    refine ⟨fun hdt => absurd hdt hd, by rw [hrun], ?_, ?_⟩
    · have hs2 : (destHostPath (hostVolumeFolder vfold kroot) f :: fs).contains
          (mylarSourceHost mroot f.file_path) = true := by
        rw [List.contains_cons, hs, Bool.or_true]
      have hd2 : (destHostPath (hostVolumeFolder vfold kroot) f :: fs).contains
          (destHostPath (hostVolumeFolder vfold kroot) f) = true := by
        rw [List.contains_cons]
        simp
      rw [hrun]
      show copy_files_to_kapowarr [f] vfold mroot kroot
          (destHostPath (hostVolumeFolder vfold kroot) f :: fs)
        = (1, destHostPath (hostVolumeFolder vfold kroot) f :: fs)
      rw [hstep _ hs2, if_pos hd2]
    · intro _
      rw [hrun]
      show (destHostPath (hostVolumeFolder vfold kroot) f :: fs).count
          (destHostPath (hostVolumeFolder vfold kroot) f) = 1
      rw [List.count_cons_self, contains_false_count_zero fs _ hdf]

/-- C8 witness: a concrete source file placed twice; the second placement
reports one copy and does not grow the filesystem. -/
theorem file_placement_idempotent_witness :
    ("/comics-1/Marvel/Foo" ≠ "") ∧
      ((["/mnt/mylar/Marvel/Foo/Foo 001.cbz"] : List String).contains
        (mylarSourceHost "/mnt/mylar" fileFoo.file_path) = true) ∧
      copy_files_to_kapowarr [fileFoo] "/comics-1/Marvel/Foo" "/mnt/mylar" "/mnt/kapowarr"
          ((copy_files_to_kapowarr [fileFoo] "/comics-1/Marvel/Foo" "/mnt/mylar" "/mnt/kapowarr"
            ["/mnt/mylar/Marvel/Foo/Foo 001.cbz"]).2)
        = (1, (copy_files_to_kapowarr [fileFoo] "/comics-1/Marvel/Foo" "/mnt/mylar" "/mnt/kapowarr"
            ["/mnt/mylar/Marvel/Foo/Foo 001.cbz"]).2) :=
  ⟨by decide, by decide,
    (file_placement_idempotent fileFoo "/comics-1/Marvel/Foo" "/mnt/mylar" "/mnt/kapowarr"
      ["/mnt/mylar/Marvel/Foo/Foo 001.cbz"] (by decide) (by decide)).2.2.1⟩

end Mylar2Kapowarr
